import Mathlib

/-!
# Verification of the aurora-web-scraper core

Shallow embedding, in Lean 4, of the parts of the scraper that the
specification's testable properties talk about:

* the infinite-scroll content-loading loops of `scraper_core.py`
  (`_handle_infinite_scroll` / `_handle_selenium_scroll`) and of
  `backend_proxy.py` (`scrape_url`);
* the page-type classifier `PaginationHandler.detect_pagination_type`
  of `pagination_handler.py`;
* the container-candidate deduplication and caps of
  `UniversalProductExtractor._parse_products` / `_parse_travel_products`;
* the field-extraction cascades and the accept/reject gate of
  `_extract_travel_data` / `_extract_product_data`;
* the rating parser `_extract_ratings_universal` of `clean_scraper.py`
  (with the relevant regular expressions implemented concretely);
* the multi-page orchestration loop `_scrape_paginated_pages` of
  `complete_page_scraper.py`;
* the vision-fallback JSON handling of `_parse_screenshot_with_openai`;
* the page-URL generators `_get_page_url` and `_construct_page_url`.

External library calls (BeautifulSoup CSS selection, `re` on patterns that
only feed opaque field strings, `json.loads`) are modelled as oracle
functions carried by the document/container structures; the repository's
own control flow — loop structure, break conditions, cascades, filters,
caps, accept gates — is translated faithfully.
-/

namespace Aurora

/-! ## String helpers

`charsStartWith hay needle` = `needle` is a prefix of `hay`;
`strHas hay needle` = Python's `needle in hay` substring test. -/

def charsStartWith : List Char → List Char → Bool
  | _, [] => true
  | [], _ :: _ => false
  | c :: cs, d :: ds => c == d && charsStartWith cs ds

def charsHave : List Char → List Char → Bool
  | [], needle => needle.isEmpty
  | c :: cs, needle => charsStartWith (c :: cs) needle || charsHave cs needle

def strHas (hay needle : String) : Bool :=
  charsHave hay.toList needle.toList

/-- Python `str.strip()` (for the whitespace default). -/
def strTrim (s : String) : String :=
  String.mk (((s.toList.dropWhile (·.isWhitespace)).reverse.dropWhile
    (·.isWhitespace)).reverse)

/-- Python `str.lower()` (ASCII case folding). -/
def strLower (s : String) : String :=
  String.mk (s.toList.map Char.toLower)

/-! ## Content-Loading Driver scroll loop

`scraper_core.py`, `_handle_infinite_scroll` (lines 134–192) and
`_handle_selenium_scroll` (lines 283–355) run the identical loop:

```
while True:
    viewport_height = innerHeight; current_scroll_position = pageYOffset
    scrollTo(current_scroll_position + viewport_height); scroll_count += 1
    screenshot(); screenshots_taken += 1
    new_height = body.scrollHeight; current_scroll_y = pageYOffset
    viewport_height = innerHeight
    if current_scroll_y + viewport_height >= new_height:
        wait 10s; final_height = body.scrollHeight
        if final_height > new_height: screenshot(); screenshots_taken += 1
        else: break
    if scroll_count >= 50: break
```

The browser observations of one iteration are collected in `ScrollObs`;
the environment is a stream of such observations indexed by iteration. -/

structure ScrollObs where
  innerHeight : Nat
  pageYOffset : Nat
  bodyScrollHeight : Nat
  pageYOffsetAfter : Nat
  innerHeightAfter : Nat
  finalHeight : Nat
  deriving Repr, DecidableEq

/-- One loop body step; fuel-indexed structural recursion (the hard
ceiling of 50 makes `51 - scrollCount` fuel always sufficient, proved in
`scrollLoopFuel_irrel`).  Returns (scroll_count, screenshots_taken). -/
def scrollLoopFuel (env : Nat → ScrollObs) : Nat → Nat → Nat → Nat → Nat × Nat
  | 0, _, sc, ss => (sc, ss)
  | fuel + 1, i, sc, ss =>
    let o := env i
    let sc' := sc + 1
    let ss' := ss + 1
    if o.pageYOffsetAfter + o.innerHeightAfter ≥ o.bodyScrollHeight then
      if o.finalHeight > o.bodyScrollHeight then
        if sc' ≥ 50 then (sc', ss' + 1)
        else scrollLoopFuel env fuel (i + 1) sc' (ss' + 1)
      else (sc', ss')
    else
      if sc' ≥ 50 then (sc', ss')
      else scrollLoopFuel env fuel (i + 1) sc' ss'

/-- The scroll loop as entered by both handlers: before the loop one
initial screenshot has been taken (`screenshots_taken = 1`) and
`scroll_count = 0`.  The fuel `51 - min sc 50` dominates the number of
iterations left before the hard ceiling (once `scroll_count ≥ 50` the
loop body runs exactly once more), so it never runs out. -/
def scrollLoop (env : Nat → ScrollObs) (i sc ss : Nat) : Nat × Nat :=
  scrollLoopFuel env (51 - min sc 50) i sc ss

def runScroll (env : Nat → ScrollObs) : Nat × Nat :=
  scrollLoop env 0 0 1

/-! ## Backend-proxy scroll loop

`backend_proxy.py`, `scrape_url` (lines 114–132): for "dynamic" URLs,

```
last_height = body.scrollHeight; scrolls = 0; max_scrolls = 50
while scrolls < max_scrolls:
    scrollTo(bottom); wait
    new_height = body.scrollHeight
    if new_height == last_height: break
    last_height = new_height; scrolls += 1
```
-/

def proxyScrollFuel (h : Nat → Nat) : Nat → Nat → Nat → Nat → Nat
  | 0, _, _, scrolls => scrolls
  | fuel + 1, i, last, scrolls =>
    if scrolls < 50 then
      let nh := h i
      if nh = last then scrolls
      else proxyScrollFuel h fuel (i + 1) nh (scrolls + 1)
    else scrolls

/-- Final value of the `scrolls` counter of the backend-proxy loop, for
height observations `h` and initial height `init`. -/
def proxyScroll (h : Nat → Nat) (init : Nat) : Nat :=
  proxyScrollFuel h 51 0 init 0

/-- A page whose height stays at 1000 across the grace wait, with the
viewport already reaching the bottom after the first scroll. -/
def envStable1000 : Nat → ScrollObs := fun _ =>
  { innerHeight := 800, pageYOffset := 0, bodyScrollHeight := 1000,
    pageYOffsetAfter := 800, innerHeightAfter := 800, finalHeight := 1000 }

/-- A page whose height grows from 1000 to 2000 across every grace wait. -/
def envGrow2000 : Nat → ScrollObs := fun _ =>
  { innerHeight := 800, pageYOffset := 0, bodyScrollHeight := 1000,
    pageYOffsetAfter := 800, innerHeightAfter := 800, finalHeight := 2000 }

/-! ## Page-Type Classifier

`pagination_handler.py`, `PaginationHandler.detect_pagination_type`
(lines 21–58).  A document is a list of elements; CSS selection by the
concrete selectors the method uses is interpreted over an element's tag,
multi-valued `class` attribute, attribute names and text. -/

structure Element where
  tag : String
  classes : List String
  attrs : List String
  text : String
  deriving Repr, DecidableEq

/-- The serialized `class` attribute value (space-joined), the value an
attribute substring selector `[class*="…"]` matches against. -/
def classAttrOf (e : Element) : String :=
  String.intercalate " " e.classes

def hasClass (e : Element) (c : String) : Bool :=
  e.classes.contains c

def classLike (e : Element) (s : String) : Bool :=
  strHas (classAttrOf e) s

/-- Tier (a): `.pagination`, `.pager`, `.page-numbers`, `.paging`,
`[class*="pagination"]`, `[class*="pager"]`, `[class*="page"]`. -/
def matchesPaginationSel (e : Element) : Bool :=
  hasClass e "pagination" || hasClass e "pager" || hasClass e "page-numbers" ||
  hasClass e "paging" || classLike e "pagination" || classLike e "pager" ||
  classLike e "page"

/-- Tier (b): `[class*="load-more"]`, `[class*="loadmore"]`,
`[class*="show-more"]`, `button:contains("Load More")`,
`a:contains("Load More")`, `[class*="infinite"]`, `[class*="scroll"]`. -/
def matchesLoadMoreSel (e : Element) : Bool :=
  classLike e "load-more" || classLike e "loadmore" || classLike e "show-more" ||
  (e.tag == "button" && strHas e.text "Load More") ||
  (e.tag == "a" && strHas e.text "Load More") ||
  classLike e "infinite" || classLike e "scroll"

/-- Tier (c): `[class*="infinite-scroll"]`, `[class*="lazy-load"]`,
`[data-infinite]`, `[data-lazy]`. -/
def matchesInfiniteSel (e : Element) : Bool :=
  classLike e "infinite-scroll" || classLike e "lazy-load" ||
  e.attrs.contains "data-infinite" || e.attrs.contains "data-lazy"

def detectPaginationType (doc : List Element) : String :=
  if doc.any matchesPaginationSel then "traditional"
  else if doc.any matchesLoadMoreSel then "load_more"
  else if doc.any matchesInfiniteSel then "infinite_scroll"
  else "unknown"

/-! ## Container Candidate Selector

`universal_product_extractor.py`, `_parse_products` (lines 727–832) and
`_parse_travel_products` (lines 437–540).  A parsed document carries the
CSS-selection and regex oracles the strategies consult; the cascade, the
dedup-by-`str(container)` and the caps are translated directly. -/

structure Doc where
  select : String → List Nat
  divs : List Nat
  render : Nat → String
  pricePattern : Nat → Bool
  hasImgOrLink : Nat → Bool
  travelPricePattern : Nat → Bool
  travelTimePattern : Nat → Bool

/-- Strategy 1 of both parsers: extend the container list selector by
selector, short-circuiting when one selector alone yields more than
`threshold` containers (5 for products, 3 for travel). -/
def strategy1 (sel : String → List Nat) (threshold : Nat) : List String → List Nat
  | [] => []
  | s :: rest =>
    let cs := sel s
    if threshold < cs.length then cs
    else cs ++ strategy1 sel threshold rest

/-- First-seen-order deduplication by a string key, with an accumulator of
already-seen keys (`seen = set()` / `unique_containers` in the source). -/
def dedupKeyed {α : Type} (key : α → String) : List α → List String → List α
  | [], _ => []
  | x :: xs, seen =>
    if key x ∈ seen then dedupKeyed key xs seen
    else x :: dedupKeyed key xs (key x :: seen)

def productSelectors : List String :=
  ["[data-id]", "[data-product-id]", "[data-item-id]", "[data-asin]",
   "[data-component-type=\"s-search-result\"]",
   ".product", ".item", ".card", ".listing", ".product-item",
   ".product-card", ".item-card", ".listing-item",
   "[class*=\"product\"]", "[class*=\"item\"]", "[class*=\"card\"]",
   "[class*=\"listing\"]", "[class*=\"result\"]", "[class*=\"search-result\"]",
   "li[class*=\"product\"]", "li[class*=\"item\"]", "div[class*=\"product\"]",
   "div[class*=\"item\"]", "div[class*=\"card\"]",
   ".s-result-item", ".sg-col-inner", "[data-tkid]",
   "div[style*=\"width: 25%\"]", ".product-tile", ".product-container",
   "div:has(img)", "div:has(a[href*=\"/product\"])", "div:has(a[href*=\"/item\"])"]

def travelSelectors : List String :=
  ["[class*=\"bus\"]", "[class*=\"ticket\"]", "[class*=\"route\"]",
   "[class*=\"journey\"]", "[class*=\"departure\"]", "[class*=\"arrival\"]",
   "[class*=\"operator\"]", "[class*=\"fare\"]", "[class*=\"seat\"]",
   "[class*=\"flight\"]", "[class*=\"airline\"]", "[class*=\"depart\"]",
   "[class*=\"arrive\"]", "[class*=\"duration\"]", "[class*=\"stops\"]",
   "[class*=\"hotel\"]", "[class*=\"property\"]", "[class*=\"room\"]",
   "[class*=\"accommodation\"]", "[class*=\"amenity\"]",
   "[class*=\"card\"]", "[class*=\"item\"]", "[class*=\"listing\"]",
   "[class*=\"result\"]", "[class*=\"option\"]", "[class*=\"choice\"]",
   "[data-testid*=\"bus\"]", "[data-testid*=\"flight\"]", "[data-testid*=\"hotel\"]",
   "[data-id*=\"bus\"]", "[data-id*=\"flight\"]", "[data-id*=\"hotel\"]",
   "[class*=\"makeMyTrip\"]", "[class*=\"mmt\"]",
   "div[class*=\"bus\"]", "div[class*=\"ticket\"]",
   "div:has(span:contains(\"₹\"))", "div:has(span:contains(\"Bus\"))",
   "div:has(span:contains(\"Flight\"))", "div:has(span:contains(\"Hotel\"))",
   "div:has(span:contains(\"Route\"))"]

/-- `_parse_products`: strategy 1 over the product selectors, falling back
to any `div` whose text has a currency price pattern and an `img`/`a`. -/
def parseProductContainers (d : Doc) : List Nat :=
  let s1 := strategy1 d.select 5 productSelectors
  if s1.isEmpty then d.divs.filter (fun v => d.pricePattern v && d.hasImgOrLink v)
  else s1

/-- The deduplicated, capped candidate list handed to
`_extract_product_data` (lines 815–831): dedup by `str(container)`, then
`unique_containers[:30]`. -/
def parseProductCandidates (d : Doc) : List Nat :=
  let cs := parseProductContainers d
  if cs.isEmpty then []
  else (dedupKeyed d.render cs []).take 30

/-- `_parse_travel_products`: strategy 1 over the travel selectors,
falling back to price-pattern divs, then to time-pattern divs. -/
def parseTravelContainers (d : Doc) : List Nat :=
  let s1 := strategy1 d.select 3 travelSelectors
  let s2 := if s1.isEmpty then d.divs.filter d.travelPricePattern else s1
  if s2.isEmpty then d.divs.filter d.travelTimePattern else s2

/-- The deduplicated, capped travel candidate list (lines 523–540):
dedup by `str(container)`, then `unique_containers[:20]`. -/
def parseTravelCandidates (d : Doc) : List Nat :=
  (dedupKeyed d.render (parseTravelContainers d) []).take 20

/-! ## Item Extractor

`universal_product_extractor.py`, `_extract_travel_data` (lines 541–725)
and `_extract_product_data` (lines 833–1049).  A container carries the
oracles for the external `select_one` / `re.findall` calls on its own
text; the selector/pattern cascades, the first-non-empty choices, the
bad-price filter and the final accept/reject gate are translated
directly.  Fields whose computation never feeds the accept gate
(image/booking/product URL, original price, discount, brand, features,
reviews) are taken from container oracles unmodelled. -/

structure TElem where
  text : String
  titleAttr : String
  altAttr : String

structure Container where
  selectOne : String → Option TElem
  text : String
  findall : String → List String
  findallPairs : String → List (String × Option String)
  imageUrlOracle : String
  linkUrlOracle : String
  origPriceOracle : String
  discountOracle : String
  brandOracle : String
  reviewsOracle : String
  featuresOracle : List String

/-- Title choice for one matched element: the `title`/`alt` attribute when
present and strictly longer than the visible text, else the visible text. -/
def pickTitle (el : TElem) : String :=
  let tText := strTrim el.text
  let tAttr := if strTrim el.titleAttr ≠ "" then strTrim el.titleAttr
    else strTrim el.altAttr
  if tAttr ≠ "" ∧ tText.length < tAttr.length then tAttr
  else if tText ≠ "" then tText
  else ""

/-- Title cascade: first selector whose element yields a non-empty title. -/
def extractTitle (c : Container) : List String → String
  | [] => ""
  | s :: rest =>
    match c.selectOne s with
    | none => extractTitle c rest
    | some el =>
      let t := pickTitle el
      if t ≠ "" then t else extractTitle c rest

/-- A price match is skipped when its lowercased text mentions an
original-price marker. -/
def priceBad (p : String) : Bool :=
  strHas (strLower p) "mrp" || strHas (strLower p) "was" ||
  strHas (strLower p) "original"

def firstGoodPrice : List String → String
  | [] => ""
  | p :: ps => if priceBad p then firstGoodPrice ps else p

/-- Price cascade: first pattern producing a non-bad match. -/
def extractPrice (c : Container) : List String → String
  | [] => ""
  | pat :: rest =>
    let g := firstGoodPrice (c.findall pat)
    if g ≠ "" then g else extractPrice c rest

/-- First pattern with any match at all; used for duration, rating,
review-count and time-like fields (`xs[0]` in the source). -/
def firstMatch (c : Container) : List String → String
  | [] => ""
  | pat :: rest =>
    match c.findall pat with
    | [] => firstMatch c rest
    | m :: _ => m

/-- Route conversion: a two-group match `(a, b)` becomes `"a to b"`, a
one-group match is taken as is; `break` fires even on an empty capture. -/
def routeOfMatches : List (String × Option String) → Option String
  | [] => none
  | (a, some b) :: _ => some (a ++ " to " ++ b)
  | (a, none) :: _ => some a

def extractRoute (c : Container) : List String → String
  | [] => ""
  | pat :: rest =>
    match routeOfMatches (c.findallPairs pat) with
    | some r => r
    | none => extractRoute c rest

def travelTitleSelectors : List String :=
  ["h1", "h2", "h3", "h4", "h5", "h6",
   "[class*=\"title\"]", "[class*=\"name\"]", "[class*=\"route\"]",
   "[class*=\"operator\"]", "[class*=\"airline\"]", "[class*=\"hotel\"]",
   "a[title]", "a[alt]", "[title]", "[alt]"]

def travelPricePatterns : List String :=
  ["₹[\\d,]+(?:\\.\\d{2})?", "\\$[\\d,]+\\.?\\d*", "£[\\d,]+\\.?\\d*",
   "€[\\d,]+\\.?\\d*", "[\\d,]+\\.?\\d*\\s*(?:USD|INR|GBP|EUR)",
   "Price:\\s*₹[\\d,]+", "Fare:\\s*₹[\\d,]+", "Cost:\\s*₹[\\d,]+"]

def travelTimePatterns : List String :=
  ["(\\d{1,2}:\\d{2})\\s*(?:AM|PM)?", "(\\d{1,2}:\\d{2})\\s*(?:am|pm)?",
   "Departure:\\s*(\\d{1,2}:\\d{2})", "Arrival:\\s*(\\d{1,2}:\\d{2})"]

def travelDurationPatterns : List String :=
  ["(\\d+h\\s*\\d*m)", "(\\d+:\\d+)", "Duration:\\s*(\\d+h\\s*\\d*m)",
   "(\\d+)\\s*hours?"]

def travelOperatorPatterns : List String :=
  ["Operator:\\s*(.*?)(?:\\s|$)", "Airline:\\s*(.*?)(?:\\s|$)",
   "by\\s+(.*?)(?:\\s|$)", "Operated by\\s+(.*?)(?:\\s|$)"]

def travelRoutePatterns : List String :=
  ["(.*?)\\s*to\\s*(.*?)(?:\\s|$)", "Route:\\s*(.*?)(?:\\s|$)",
   "From\\s+(.*?)\\s+to\\s+(.*?)(?:\\s|$)"]

def travelStopsPatterns : List String :=
  ["(\\d+)\\s*stops?", "Non-stop", "Direct"]

/-- Travel-type tagging by keywords of the container text. -/
def travelType (c : Container) : String :=
  let lt := strLower c.text
  if strHas lt "bus" || strHas lt "route" || strHas lt "operator" then "bus"
  else if strHas lt "flight" || strHas lt "airline" || strHas lt "departure" then "flight"
  else if strHas lt "hotel" || strHas lt "property" || strHas lt "room" then "hotel"
  else "travel"

/-- All time-pattern matches, concatenated over the patterns in order. -/
def travelTimes (c : Container) : List String :=
  (travelTimePatterns.map c.findall).flatten

/-- The characters after the first `"://"`, when one occurs. -/
def afterSchemeCL : List Char → Option (List Char)
  | [] => none
  | c :: rest =>
    if charsStartWith (c :: rest) [':', '/', '/'] then some (rest.drop 2)
    else afterSchemeCL rest

/-- `urlparse(url).netloc`, for well-formed absolute URLs. -/
def netlocOf (url : String) : String :=
  match afterSchemeCL url.toList with
  | some rest =>
    String.mk (rest.takeWhile fun ch => ch ≠ '/' ∧ ch ≠ '?' ∧ ch ≠ '#')
  | none => ""

/-- `times[1]` when at least two time matches exist. -/
def travelArrival (times : List String) : String :=
  if 2 ≤ times.length then times.getD 1 "" else ""

def travelStops (c : Container) : String :=
  let s := firstMatch c travelStopsPatterns
  if s = "" then "" else if s = "0" then "Non-stop" else s

structure TravelItem where
  index : Nat
  type : String
  title : String
  price : String
  originalPrice : String
  departureTime : String
  arrivalTime : String
  duration : String
  operator : String
  route : String
  stops : String
  rating : String
  reviewsCount : String
  imageUrl : String
  bookingUrl : String
  platform : String
  deriving Repr, DecidableEq

/-- `_extract_travel_data`: build the item through the cascades, then
return it only when title, price or route is non-empty; otherwise reject
by returning nothing (the source falls through to an implicit `None`). -/
def extractTravelData (c : Container) (index : Nat) (baseUrl : String) :
    Option TravelItem :=
  let times := travelTimes c
  let item : TravelItem :=
    { index := index
      type := travelType c
      title := extractTitle c travelTitleSelectors
      price := extractPrice c travelPricePatterns
      originalPrice := ""
      departureTime := times.headD ""
      arrivalTime := travelArrival times
      duration := firstMatch c travelDurationPatterns
      operator := strTrim (firstMatch c travelOperatorPatterns)
      route := extractRoute c travelRoutePatterns
      stops := travelStops c
      rating := ""
      reviewsCount := ""
      imageUrl := c.imageUrlOracle
      bookingUrl := c.linkUrlOracle
      platform := netlocOf baseUrl }
  if item.title ≠ "" ∨ item.price ≠ "" ∨ item.route ≠ "" then some item
  else none

def productTitleSelectors : List String :=
  ["h1", "h2", "h3", "h4", "h5", "h6",
   "[class*=\"title\"]", "[class*=\"name\"]", "[class*=\"product-name\"]",
   "[class*=\"heading\"]", "[class*=\"product-title\"]",
   "a[title]", "a[alt]", "[title]", "[alt]"]

def productPricePatterns : List String :=
  ["₹[\\d,]+(?:\\.\\d{2})?", "\\$[\\d,]+\\.?\\d*", "£[\\d,]+\\.?\\d*",
   "€[\\d,]+\\.?\\d*", "[\\d,]+\\.?\\d*\\s*(?:USD|INR|GBP|EUR)",
   "Price:\\s*₹[\\d,]+", "MRP:\\s*₹[\\d,]+"]

def productRatingPatterns : List String :=
  ["(\\d+\\.?\\d*)\\s*out\\s*of\\s*5\\s*stars", "(\\d+\\.?\\d*)\\s*stars",
   "Rating:\\s*(\\d+\\.?\\d*)", "(\\d+\\.?\\d*)/5", "(\\d+\\.?\\d*)\\s*★"]

structure ProductItem where
  index : Nat
  title : String
  price : String
  originalPrice : String
  discount : String
  rating : String
  reviewsCount : String
  imageUrl : String
  productUrl : String
  availability : String
  brand : String
  features : List String
  platform : String
  deriving Repr, DecidableEq

/-- `_extract_product_data`: same accept gate, over title and price only
(a product record carries no route field). -/
def extractProductData (c : Container) (index : Nat) (baseUrl : String) :
    Option ProductItem :=
  let item : ProductItem :=
    { index := index
      title := extractTitle c productTitleSelectors
      price := extractPrice c productPricePatterns
      originalPrice := c.origPriceOracle
      discount := c.discountOracle
      rating := firstMatch c productRatingPatterns
      reviewsCount := c.reviewsOracle
      imageUrl := c.imageUrlOracle
      productUrl := c.linkUrlOracle
      availability := ""
      brand := c.brandOracle
      features := c.featuresOracle
      platform := netlocOf baseUrl }
  if item.title ≠ "" ∨ item.price ≠ "" then some item
  else none

/-! ## Rating field parser

`clean_scraper.py`, `_extract_ratings_universal` (lines 230–259).  The six
rating regexes are implemented concretely (case-insensitivity via
lowercasing; `\d+(?:\.\d+)?` greedy — for these patterns the greedy parse
is exact, since every literal tail begins with a non-digit, non-dot
character, so no backtracking can rescue a failed tail).  `re.findall`
scans left to right, resuming after each non-overlapping match. -/

def digitsToNat (ds : List Char) : Nat :=
  ds.foldl (fun a c => 10 * a + (c.toNat - 48)) 0

/-- `\d+` (greedy, at least one digit). -/
def parseDigitsCL (cs : List Char) : Option (List Char × List Char) :=
  let ds := cs.takeWhile (·.isDigit)
  if ds.isEmpty then none else some (ds, cs.drop ds.length)

/-- A parsed decimal numeral `mantissa / 10 ^ fracLen`, the value
`float()` receives; kept as scaled naturals so the whole parser is
kernel-computable, and interpreted into `ℚ` by `ratingValQ`. -/
structure DecNum where
  mantissa : Nat
  fracLen : Nat
  deriving Repr, DecidableEq

def ratingValQ (p : DecNum) : ℚ :=
  (p.mantissa : ℚ) / (10 : ℚ) ^ p.fracLen

/-- `\d+(?:\.\d+)?` together with the rest of the input. -/
def parseNum (cs : List Char) : Option (DecNum × List Char) :=
  match parseDigitsCL cs with
  | none => none
  | some (ds, rest) =>
    match rest with
    | c :: rest2 =>
      if c = '.' then
        match parseDigitsCL rest2 with
        | some (fs, rest3) =>
          some ({ mantissa := digitsToNat (ds ++ fs), fracLen := fs.length },
            rest3)
        | none => some ({ mantissa := digitsToNat ds, fracLen := 0 }, c :: rest2)
      else some ({ mantissa := digitsToNat ds, fracLen := 0 }, c :: rest2)
    | [] => some ({ mantissa := digitsToNat ds, fracLen := 0 }, [])

/-- `\s*`. -/
def skipWs (cs : List Char) : List Char :=
  cs.dropWhile (·.isWhitespace)

/-- A literal, already lowercased. -/
def litP (lit : List Char) (cs : List Char) : Option (List Char) :=
  if charsStartWith cs lit then some (cs.drop lit.length) else none

/-- `(\d+(?:\.\d+)?)\s*\/\s*5`. -/
def ratingPat1 (cs : List Char) : Option (DecNum × List Char) :=
  match parseNum cs with
  | none => none
  | some (v, r1) =>
    match litP ['/'] (skipWs r1) with
    | none => none
    | some r2 =>
      match litP ['5'] (skipWs r2) with
      | none => none
      | some r3 => some (v, r3)

/-- `(\d+(?:\.\d+)?)\s*stars?` (case-insensitive). -/
def ratingPat2 (cs : List Char) : Option (DecNum × List Char) :=
  match parseNum cs with
  | none => none
  | some (v, r1) =>
    match litP ['s', 't', 'a', 'r'] (skipWs r1) with
    | none => none
    | some r2 =>
      match litP ['s'] r2 with
      | some r3 => some (v, r3)
      | none => some (v, r2)

/-- `Rating:\s*(\d+(?:\.\d+)?)` (case-insensitive). -/
def ratingPat3 (cs : List Char) : Option (DecNum × List Char) :=
  match litP ['r', 'a', 't', 'i', 'n', 'g', ':'] cs with
  | none => none
  | some r1 =>
    match parseNum (skipWs r1) with
    | none => none
    | some (v, r2) => some (v, r2)

/-- `(\d+(?:\.\d+)?)\s*out\s*of\s*5` (case-insensitive). -/
def ratingPat4 (cs : List Char) : Option (DecNum × List Char) :=
  match parseNum cs with
  | none => none
  | some (v, r1) =>
    match litP ['o', 'u', 't'] (skipWs r1) with
    | none => none
    | some r2 =>
      match litP ['o', 'f'] (skipWs r2) with
      | none => none
      | some r3 =>
        match litP ['5'] (skipWs r3) with
        | none => none
        | some r4 => some (v, r4)

/-- `(\d+(?:\.\d+)?)\s*\/\s*10`. -/
def ratingPat5 (cs : List Char) : Option (DecNum × List Char) :=
  match parseNum cs with
  | none => none
  | some (v, r1) =>
    match litP ['/'] (skipWs r1) with
    | none => none
    | some r2 =>
      match litP ['1', '0'] (skipWs r2) with
      | none => none
      | some r3 => some (v, r3)

/-- `(\d+(?:\.\d+)?)\s*out\s*of\s*10` (case-insensitive). -/
def ratingPat6 (cs : List Char) : Option (DecNum × List Char) :=
  match parseNum cs with
  | none => none
  | some (v, r1) =>
    match litP ['o', 'u', 't'] (skipWs r1) with
    | none => none
    | some r2 =>
      match litP ['o', 'f'] (skipWs r2) with
      | none => none
      | some r3 =>
        match litP ['1', '0'] (skipWs r3) with
        | none => none
        | some r4 => some (v, r4)

/-- `re.findall` scan: try the matcher at every position, resuming after
the end of each match; the fuel `length + 1` dominates the number of scan
steps because every matcher consumes at least one character. -/
def findAllFuel (m : List Char → Option (DecNum × List Char)) :
    Nat → List Char → List DecNum
  | 0, _ => []
  | fuel + 1, cs =>
    match m cs with
    | some (q, rest) => q :: findAllFuel m fuel rest
    | none =>
      match cs with
      | [] => []
      | _ :: t => findAllFuel m fuel t

def findAllCL (m : List Char → Option (DecNum × List Char)) (cs : List Char) :
    List DecNum :=
  findAllFuel m (cs.length + 1) cs

def ratingMatchers : List (List Char → Option (DecNum × List Char)) :=
  [ratingPat1, ratingPat2, ratingPat3, ratingPat4, ratingPat5, ratingPat6]

/-- `0 <= rating_value <= 10`, over the scaled representation
(`ratingKeep_iff` proves the agreement with the rational bounds). -/
def ratingKeep (p : DecNum) : Bool :=
  p.mantissa ≤ 10 * 10 ^ p.fracLen

/-- `10 if rating_value > 5 else 5` (`ratingScale_eq` proves the
agreement with the rational comparison). -/
def ratingScale (p : DecNum) : Nat :=
  if 5 * 10 ^ p.fracLen < p.mantissa then 10 else 5

/-- `_extract_ratings_universal`: all pattern matches in pattern order,
each kept only when its value lies in `[0, 10]`, with scale 10 when the
value exceeds 5 and scale 5 otherwise; truncated to 20 entries. -/
def extractRatingsUniversal (text : String) : List (DecNum × Nat) :=
  let cs := (strLower text).toList
  let vals := (ratingMatchers.map fun m => findAllCL m cs).flatten
  (vals.filterMap fun v =>
    if ratingKeep v then some (v, ratingScale v) else none).take 20

/-! ## Pagination Orchestrator

`complete_page_scraper.py`, `_scrape_paginated_pages` (lines 86–136):

```
all_products = []; current_page = 1
while current_page <= max_pages:
    try:
        result = self.extractor.extract_products(page_url)
        if result and result['products']:
            all_products.extend(result['products']); current_page += 1
        else: break
    except Exception: break
return {'total_pages': current_page - 1, 'products': all_products, ...}
```

One page attempt either raises or returns a product list (`None` and a
missing/empty list behave identically, as an empty `returned`). -/

inductive PageResult (α : Type) where
  | raised : PageResult α
  | returned : List α → PageResult α

def scrapeLoopFuel {α : Type} (outcome : Nat → PageResult α) (maxPages : Nat) :
    Nat → Nat → List α → Nat × List α
  | 0, cur, acc => (cur - 1, acc)
  | fuel + 1, cur, acc =>
    if cur ≤ maxPages then
      match outcome cur with
      | .raised => (cur - 1, acc)
      | .returned ps =>
        if ps.isEmpty then (cur - 1, acc)
        else scrapeLoopFuel outcome maxPages fuel (cur + 1) (acc ++ ps)
    else (cur - 1, acc)

/-- `_scrape_paginated_pages`, as (total_pages, all_products).  The fuel
`maxPages` equals the iterations left from `current_page = 1`; when it
hits zero the loop condition fails too, so the cut is never observable
(`scrapeLoopFuel_irrel`). -/
def scrapePaginated {α : Type} (outcome : Nat → PageResult α) (maxPages : Nat) :
    Nat × List α :=
  scrapeLoopFuel outcome maxPages maxPages 1 []

/-! ## Vision Fallback Path

`universal_product_extractor.py`, `_parse_screenshot_with_openai`
(lines 306–407).  The oracle's reply is free-form text; the code takes
`re.search(r'\[.*\]', content, re.DOTALL)` — the substring from the first
`[` to the last `]` — and feeds it to `json.loads`; any failure yields an
empty record list.  `json.loads`-plus-field-shaping is the external
parser argument. -/

def findJsonArray (content : String) : Option String :=
  let cs := content.toList
  match cs.findIdx? (· == '['), cs.reverse.findIdx? (· == ']') with
  | some i, some jr =>
    let j := cs.length - 1 - jr
    if i < j then some (String.mk ((cs.drop i).take (j - i + 1))) else none
  | _, _ => none

/-- A parsed JSON object, as key/value pairs; `jget` is `dict.get(k, '')`. -/
def JObj : Type := List (String × String)

def jget (o : JObj) (k : String) : String :=
  ((o.find? fun kv => kv.1 == k).map fun kv => kv.2).getD ""

structure VTravelFields where
  type : String
  departureTime : String
  arrivalTime : String
  duration : String
  operator : String
  route : String
  stops : String

structure VRecord where
  index : Nat
  pageNumber : Nat
  title : String
  price : String
  originalPrice : String
  discount : String
  rating : String
  brand : String
  platform : String
  travel : Option VTravelFields

def vRecordOf (url : String) (pageNum : Nat) (isTravel : Bool) (i : Nat)
    (o : JObj) : VRecord :=
  { index := i + 1
    pageNumber := pageNum
    title := jget o "title"
    price := jget o "price"
    originalPrice := jget o "original_price"
    discount := jget o "discount"
    rating := jget o "rating"
    brand := jget o "brand"
    platform := netlocOf url
    travel :=
      if isTravel then
        some { type := jget o "type", departureTime := jget o "departure_time",
               arrivalTime := jget o "arrival_time", duration := jget o "duration",
               operator := jget o "operator", route := jget o "route",
               stops := jget o "stops" }
      else none }

/-- `_parse_screenshot_with_openai` after the oracle reply `content` is in
hand: locate the JSON array, parse it, convert each object. -/
def parseScreenshotRecords (parse : String → Option (List JObj))
    (content url : String) (pageNum : Nat) (isTravel : Bool) : List VRecord :=
  match findJsonArray content with
  | none => []
  | some s =>
    match parse s with
    | none => []
    | some objs => objs.mapIdx fun i o => vRecordOf url pageNum isTravel i o

/-! ## Page-URL generation

`universal_product_extractor.py`, `_get_page_url` (lines 409–426) and
`complete_page_scraper.py`, `_construct_page_url` (lines 235–241). -/

/-- One attempt of the regex `page=\d+` at the head of the input:
the literal `page=` followed by at least one digit (greedy). -/
def matchPageEq (cs : List Char) : Option (List Char) :=
  if charsStartWith cs ['p', 'a', 'g', 'e', '='] then
    let rest := cs.drop 5
    let ds := rest.takeWhile (·.isDigit)
    if ds.isEmpty then none else some (rest.drop ds.length)
  else none

/-- `re.sub(r'page=\d+', f'page={n}', s)`: replace every non-overlapping
occurrence, scanning left to right. -/
def reSubPageFuel (n : Nat) : Nat → List Char → List Char
  | 0, cs => cs
  | _ + 1, [] => []
  | fuel + 1, c :: rest =>
    match matchPageEq (c :: rest) with
    | some rem => ("page=" ++ toString n).toList ++ reSubPageFuel n fuel rem
    | none => c :: reSubPageFuel n fuel rest

def reSubPage (n : Nat) (s : String) : String :=
  String.mk (reSubPageFuel n s.length s.toList)

/-- `_get_page_url`: page 1 returns the base unchanged; otherwise replace
an existing `page=<digits>` parameter or append one. -/
def getPageUrl (baseUrl : String) (pageNum : Nat) : String :=
  if pageNum = 1 then baseUrl
  else if strHas baseUrl "?" then
    if strHas baseUrl "page=" then reSubPage pageNum baseUrl
    else baseUrl ++ "&page=" ++ toString pageNum
  else baseUrl ++ "?page=" ++ toString pageNum

/-- `_construct_page_url`: append the page parameter unconditionally, for
every page number (including 1). -/
def constructPageUrl (baseUrl : String) (pageNum : Nat) : String :=
  if strHas baseUrl "?" then baseUrl ++ "&page=" ++ toString pageNum
  else baseUrl ++ "?page=" ++ toString pageNum

/-! ## Concrete fixtures

Small closed instances used to instantiate the universally quantified
theorems below on concrete inputs. -/

/-- A three-element document carrying a numbered-pagination control, a
load-more button and an infinite-scroll marker at once. -/
def docAllTiers : List Element :=
  [{ tag := "div", classes := ["pagination"], attrs := [], text := "1 2 3 Next" },
   { tag := "button", classes := ["load-more"], attrs := [], text := "Load More" },
   { tag := "div", classes := ["infinite-scroll"], attrs := ["data-infinite"],
     text := "" }]

/-- A document on which the first product selector alone returns seven
structurally distinct containers. -/
def docSeven : Doc :=
  { select := fun s => if s == "[data-id]" then [1, 2, 3, 4, 5, 6, 7] else []
    divs := []
    render := fun n => toString n
    pricePattern := fun _ => false
    hasImgOrLink := fun _ => false
    travelPricePattern := fun _ => false
    travelTimePattern := fun _ => false }

/-- A container on which every oracle comes back empty. -/
def emptyContainer : Container :=
  { selectOne := fun _ => none
    text := ""
    findall := fun _ => []
    findallPairs := fun _ => []
    imageUrlOracle := ""
    linkUrlOracle := ""
    origPriceOracle := ""
    discountOracle := ""
    brandOracle := ""
    reviewsOracle := ""
    featuresOracle := [] }

/-- A container whose `h2` carries a title and whose text matches the
dollar price pattern once. -/
def titledContainer : Container :=
  { emptyContainer with
    selectOne := fun s =>
      if s == "h2" then some { text := "Fancy Widget", titleAttr := "", altAttr := "" }
      else none
    text := "Fancy Widget $19.99"
    findall := fun pat => if pat == "\\$[\\d,]+\\.?\\d*" then ["$19.99"] else [] }

/-- The record `_extract_product_data` builds from `titledContainer`. -/
def titledItem : ProductItem :=
  { index := 1, title := "Fancy Widget", price := "$19.99",
    originalPrice := "", discount := "", rating := "", reviewsCount := "",
    imageUrl := "", productUrl := "", availability := "", brand := "",
    features := [], platform := "shop.com" }

/-- Page outcomes: pages 1 and 2 return records, page 3 raises. -/
def outcomeEx : Nat → PageResult String := fun j =>
  if j = 1 then .returned ["p1a", "p1b"]
  else if j = 2 then .returned ["p2a"]
  else .raised

def psEx : Nat → List String := fun j =>
  if j = 1 then ["p1a", "p1b"] else ["p2a"]

/-! ## Helper lemmas -/

/-- The fuel is irrelevant as soon as it exceeds the iterations left
before the hard ceiling: the embedding is the loop's true semantics. -/
theorem scrollLoopFuel_irrel (env : Nat → ScrollObs) :
    ∀ f g i sc ss, 51 - min sc 50 ≤ f → 51 - min sc 50 ≤ g →
      scrollLoopFuel env f i sc ss = scrollLoopFuel env g i sc ss := by
  intro f
  induction f using Nat.strong_induction_on with
  | _ f ih =>
    intro g i sc ss hf hg
    match f, g with
    | 0, 0 => rfl
    | 0, _ + 1 => omega
    | _ + 1, 0 => omega
    | f' + 1, g' + 1 =>
      simp only [scrollLoopFuel]
      by_cases hb : (env i).pageYOffsetAfter + (env i).innerHeightAfter ≥
          (env i).bodyScrollHeight
      · simp only [hb, if_pos]
        by_cases hgrow : (env i).finalHeight > (env i).bodyScrollHeight
        · simp only [hgrow, if_pos]
          by_cases hcap : sc + 1 ≥ 50
          · simp [hcap]
          · simp only [hcap, if_neg, if_false]
            exact ih f' (Nat.lt_succ_self f') g' (i + 1) (sc + 1) (ss + 1 + 1)
              (by omega) (by omega)
        · simp [hgrow]
      · simp only [ge_iff_le] at hb
        simp only [ge_iff_le, hb, if_false, if_neg]
        by_cases hcap : sc + 1 ≥ 50
        · simp [hcap]
        · simp only [hcap, if_neg, if_false]
          exact ih f' (Nat.lt_succ_self f') g' (i + 1) (sc + 1) (ss + 1)
            (by omega) (by omega)

theorem proxyScrollFuel_irrel (h : Nat → Nat) :
    ∀ f g i last scrolls, 51 - scrolls ≤ f → 51 - scrolls ≤ g →
      proxyScrollFuel h f i last scrolls = proxyScrollFuel h g i last scrolls := by
  intro f
  induction f using Nat.strong_induction_on with
  | _ f ih =>
    intro g i last scrolls hf hg
    match f, g with
    | 0, 0 => rfl
    | 0, g' + 1 =>
      have hs : ¬ scrolls < 50 := by omega
      simp [proxyScrollFuel, hs]
    | f' + 1, 0 =>
      have hs : ¬ scrolls < 50 := by omega
      simp [proxyScrollFuel, hs]
    | f' + 1, g' + 1 =>
      simp only [proxyScrollFuel]
      by_cases hs : scrolls < 50
      · simp only [hs, if_pos]
        by_cases hstop : h i = last
        · simp [hstop]
        · simp only [hstop, if_neg, if_false]
          exact ih f' (Nat.lt_succ_self f') g' (i + 1) (h i) (scrolls + 1)
            (by omega) (by omega)
      · simp [hs]

theorem proxyScrollFuel_le (h : Nat → Nat) :
    ∀ f i last scrolls, proxyScrollFuel h f i last scrolls ≤ max scrolls 50 := by
  intro f
  induction f with
  | zero => intro i last scrolls; simp [proxyScrollFuel]
  | succ f ih =>
    intro i last scrolls
    simp only [proxyScrollFuel]
    by_cases hs : scrolls < 50
    · simp only [hs, if_pos]
      by_cases hstop : h i = last
      · simp [hstop]
      · simp only [hstop, if_neg, if_false]
        exact le_trans (ih (i + 1) (h i) (scrolls + 1)) (by omega)
    · simp [hs]

theorem scrollLoopFuel_fst_le (env : Nat → ScrollObs) :
    ∀ f i sc ss, (scrollLoopFuel env f i sc ss).1 ≤ max (sc + 1) 50 := by
  intro f
  induction f with
  | zero => intro i sc ss; simp [scrollLoopFuel]
  | succ f ih =>
    intro i sc ss
    simp only [scrollLoopFuel]
    by_cases hb : (env i).pageYOffsetAfter + (env i).innerHeightAfter ≥
        (env i).bodyScrollHeight
    · simp only [hb, if_pos]
      by_cases hgrow : (env i).finalHeight > (env i).bodyScrollHeight
      · simp only [hgrow, if_pos]
        by_cases hcap : sc + 1 ≥ 50
        · simp [hcap]
        · simp only [hcap, if_neg, if_false]
          exact le_trans (ih (i + 1) (sc + 1) (ss + 1 + 1)) (by omega)
      · simp [hgrow]
    · simp only [ge_iff_le] at hb
      simp only [ge_iff_le, hb, if_false, if_neg]
      by_cases hcap : sc + 1 ≥ 50
      · simp [hcap]
      · simp only [hcap, if_neg, if_false]
        exact le_trans (ih (i + 1) (sc + 1) (ss + 1)) (by omega)

/-- No-growth break of the scroll loop: when the page is at the bottom and
the post-grace-wait height did not grow, the iteration breaks with one
scroll and one screenshot added. -/
theorem scrollLoop_bottom_stable (env : Nat → ScrollObs) (i sc ss : Nat)
    (hb : (env i).pageYOffsetAfter + (env i).innerHeightAfter ≥
      (env i).bodyScrollHeight)
    (hstable : (env i).finalHeight ≤ (env i).bodyScrollHeight) :
    scrollLoop env i sc ss = (sc + 1, ss + 1) := by
  obtain ⟨f', hf⟩ : ∃ f', 51 - min sc 50 = f' + 1 := ⟨50 - min sc 50, by omega⟩
  have hgrow : ¬ (env i).finalHeight > (env i).bodyScrollHeight := by omega
  simp [scrollLoop, hf, scrollLoopFuel, hb, hgrow]

/-- Growth continuation of the scroll loop: at the bottom with height
growth after the grace wait and the ceiling not reached, the driver takes
exactly one additional screenshot and re-enters the loop. -/
theorem scrollLoop_bottom_growth (env : Nat → ScrollObs) (i sc ss : Nat)
    (hb : (env i).pageYOffsetAfter + (env i).innerHeightAfter ≥
      (env i).bodyScrollHeight)
    (hgrow : (env i).finalHeight > (env i).bodyScrollHeight)
    (hcap : sc + 1 < 50) :
    scrollLoop env i sc ss = scrollLoop env (i + 1) (sc + 1) (ss + 2) := by
  obtain ⟨f', hf⟩ : ∃ f', 51 - min sc 50 = f' + 1 := ⟨50 - min sc 50, by omega⟩
  have hcap' : ¬ sc + 1 ≥ 50 := by omega
  simp only [scrollLoop, hf, scrollLoopFuel, hb, hgrow, hcap', ge_iff_le,
    if_pos, if_neg, not_false_iff, le_refl]
  rw [show ss + 1 + 1 = ss + 2 by rfl]
  exact scrollLoopFuel_irrel env f' (51 - min (sc + 1) 50) (i + 1) (sc + 1)
    (ss + 2) (by omega) (by omega)

theorem dedupKeyed_sublist {α : Type} (key : α → String) :
    ∀ xs seen, (dedupKeyed key xs seen).Sublist xs := by
  intro xs
  induction xs with
  | nil => intro seen; simp [dedupKeyed]
  | cons x xs ih =>
    intro seen
    simp only [dedupKeyed]
    by_cases h : key x ∈ seen
    · exact (if_pos h) ▸ ((ih seen).trans (List.sublist_cons_self x xs))
    · exact (if_neg h) ▸ (ih (key x :: seen)).cons₂ x

theorem dedupKeyed_key_not_seen {α : Type} (key : α → String) :
    ∀ xs seen y, y ∈ dedupKeyed key xs seen → key y ∉ seen := by
  intro xs
  induction xs with
  | nil => intro seen y hy; simp [dedupKeyed] at hy
  | cons x xs ih =>
    intro seen y hy
    simp only [dedupKeyed] at hy
    by_cases h : key x ∈ seen
    · rw [if_pos h] at hy
      exact ih seen y hy
    · rw [if_neg h] at hy
      rcases List.mem_cons.mp hy with rfl | hy'
      · exact h
      · intro hks
        exact ih (key x :: seen) y hy' (List.mem_cons_of_mem _ hks)

theorem dedupKeyed_keys_nodup {α : Type} (key : α → String) :
    ∀ xs seen, ((dedupKeyed key xs seen).map key).Nodup := by
  intro xs
  induction xs with
  | nil => intro seen; simp [dedupKeyed]
  | cons x xs ih =>
    intro seen
    simp only [dedupKeyed]
    by_cases h : key x ∈ seen
    · exact (if_pos h) ▸ ih seen
    · rw [if_neg h]
      simp only [List.map_cons, List.nodup_cons]
      refine ⟨?_, ih (key x :: seen)⟩
      intro hmem
      rcases List.mem_map.mp hmem with ⟨y, hy, hky⟩
      exact dedupKeyed_key_not_seen key xs (key x :: seen) y hy
        (hky ▸ List.mem_cons_self _ _)

theorem dedupKeyed_id_of_nodup {α : Type} (key : α → String) :
    ∀ xs seen, (xs.map key).Nodup → (∀ x ∈ xs, key x ∉ seen) →
      dedupKeyed key xs seen = xs := by
  intro xs
  induction xs with
  | nil => intro seen _ _; rfl
  | cons x xs ih =>
    intro seen hnd hdisj
    simp only [List.map_cons, List.nodup_cons] at hnd
    simp only [dedupKeyed, if_neg (hdisj x (List.mem_cons_self x xs))]
    congr 1
    refine ih (key x :: seen) hnd.2 ?_
    intro y hy
    simp only [List.mem_cons]
    rintro (hk | hk)
    · exact hnd.1 (hk ▸ List.mem_map_of_mem key hy)
    · exact hdisj y (List.mem_cons_of_mem x hy) hk

/-- Membership in the `seen` accumulator is all that matters: the dedup is
insensitive to the order or multiplicity of the seen-key set. -/
theorem dedupKeyed_seen_ext {α : Type} (key : α → String) :
    ∀ xs s s', (∀ a, a ∈ s ↔ a ∈ s') →
      dedupKeyed key xs s = dedupKeyed key xs s' := by
  intro xs
  induction xs with
  | nil => intro s s' _; rfl
  | cons x xs ih =>
    intro s s' hss
    simp only [dedupKeyed]
    by_cases h : key x ∈ s
    · rw [if_pos h, if_pos ((hss (key x)).mp h), ih s s' hss]
    · rw [if_neg h, if_neg (fun h' => h ((hss (key x)).mpr h'))]
      congr 1
      refine ih (key x :: s) (key x :: s') ?_
      intro a
      simp only [List.mem_cons]
      exact or_congr Iff.rfl (hss a)

theorem scrapeLoopFuel_irrel {α : Type} (outcome : Nat → PageResult α)
    (maxPages : Nat) :
    ∀ f g cur acc, maxPages + 1 - cur ≤ f → maxPages + 1 - cur ≤ g →
      scrapeLoopFuel outcome maxPages f cur acc =
        scrapeLoopFuel outcome maxPages g cur acc := by
  intro f
  induction f using Nat.strong_induction_on with
  | _ f ih =>
    intro g cur acc hf hg
    match f, g with
    | 0, 0 => rfl
    | 0, g' + 1 =>
      have hc : ¬ cur ≤ maxPages := by omega
      simp [scrapeLoopFuel, hc]
    | f' + 1, 0 =>
      have hc : ¬ cur ≤ maxPages := by omega
      simp [scrapeLoopFuel, hc]
    | f' + 1, g' + 1 =>
      simp only [scrapeLoopFuel]
      by_cases hc : cur ≤ maxPages
      · simp only [hc, if_pos]
        cases houtcome : outcome cur with
        | raised => rfl
        | returned ps =>
          by_cases hps : ps.isEmpty
          · simp [hps]
          · simp only [hps, if_neg, if_false, Bool.not_eq_true]
            exact ih f' (Nat.lt_succ_self f') g' (cur + 1) (acc ++ ps)
              (by omega) (by omega)
      · simp [hc]

theorem takeWhileLen (p : Char → Bool) :
    ∀ l : List Char, (l.takeWhile p).length ≤ l.length := by
  intro l
  induction l with
  | nil => simp [List.takeWhile]
  | cons c t ih =>
    simp only [List.takeWhile]
    cases p c
    · simp
    · simp only [List.length_cons]
      omega

theorem dropWhileLen (p : Char → Bool) :
    ∀ l : List Char, (l.dropWhile p).length ≤ l.length := by
  intro l
  induction l with
  | nil => simp [List.dropWhile]
  | cons c t ih =>
    simp only [List.dropWhile]
    cases p c
    · simp
    · simp only [List.length_cons]
      omega

theorem litP_len {l cs r : List Char} (h : litP l cs = some r) :
    r.length ≤ cs.length := by
  unfold litP at h
  split_ifs at h
  cases h
  simp [List.length_drop]

theorem skipWs_len (cs : List Char) : (skipWs cs).length ≤ cs.length :=
  dropWhileLen _ cs

theorem charsStartWith_len :
    ∀ {cs l : List Char}, charsStartWith cs l = true → l.length ≤ cs.length := by
  intro cs l
  induction l generalizing cs with
  | nil => simp
  | cons d ds ih =>
    cases cs with
    | nil => simp [charsStartWith]
    | cons c t =>
      simp only [charsStartWith, Bool.and_eq_true, beq_iff_eq, List.length_cons]
      rintro ⟨-, h⟩
      exact Nat.succ_le_succ (ih h)

theorem parseDigitsCL_lt {cs ds rest : List Char}
    (h : parseDigitsCL cs = some (ds, rest)) : rest.length < cs.length := by
  simp only [parseDigitsCL] at h
  split_ifs at h with hds
  cases h
  have h1 : (cs.takeWhile (·.isDigit)).length ≤ cs.length := takeWhileLen _ cs
  have h2 : 0 < (cs.takeWhile (·.isDigit)).length := by
    cases hc : cs.takeWhile (·.isDigit) with
    | nil => rw [hc] at hds; simp at hds
    | cons a t => simp [hc]
  rw [List.length_drop]
  omega

theorem parseNum_lt : ∀ {cs : List Char} {v : DecNum} {rest : List Char},
    parseNum cs = some (v, rest) → rest.length < cs.length := by
  intro cs v rest h
  unfold parseNum at h
  cases hd : parseDigitsCL cs with
  | none => simp only [hd, reduceCtorEq] at h
  | some pr =>
    obtain ⟨ds, rest1⟩ := pr
    simp only [hd] at h
    have h1 : rest1.length < cs.length := parseDigitsCL_lt hd
    cases rest1 with
    | nil =>
      simp only [Option.some.injEq, Prod.mk.injEq] at h
      obtain ⟨-, hr⟩ := h
      subst hr
      simpa using h1
    | cons c rest2 =>
      dsimp only at h
      split_ifs at h with hc
      · cases hd2 : parseDigitsCL rest2 with
        | none =>
          simp only [hd2, Option.some.injEq, Prod.mk.injEq] at h
          obtain ⟨-, hr⟩ := h
          subst hr
          exact h1
        | some pr2 =>
          obtain ⟨fs, rest3⟩ := pr2
          simp only [hd2, Option.some.injEq, Prod.mk.injEq] at h
          obtain ⟨-, hr⟩ := h
          subst hr
          have h2 : rest3.length < rest2.length := parseDigitsCL_lt hd2
          simp only [List.length_cons] at h1
          omega
      · simp only [Option.some.injEq, Prod.mk.injEq] at h
        obtain ⟨-, hr⟩ := h
        subst hr
        exact h1

/-- Every rating matcher consumes at least one character of its input. -/
theorem ratingPat1_lt {cs : List Char} {v : DecNum} {rest : List Char}
    (h : ratingPat1 cs = some (v, rest)) : rest.length < cs.length := by
  unfold ratingPat1 at h
  cases hn : parseNum cs with
  | none => simp only [hn, reduceCtorEq] at h
  | some pr =>
    obtain ⟨v1, r1⟩ := pr
    simp only [hn] at h
    cases h2 : litP ['/'] (skipWs r1) with
    | none => simp only [h2, reduceCtorEq] at h
    | some r2 =>
      simp only [h2] at h
      cases h3 : litP ['5'] (skipWs r2) with
      | none => simp only [h3, reduceCtorEq] at h
      | some r3 =>
        simp only [h3, Option.some.injEq, Prod.mk.injEq] at h
        obtain ⟨-, hr⟩ := h
        subst hr
        have := parseNum_lt hn
        have := litP_len h2
        have := litP_len h3
        have := skipWs_len r1
        have := skipWs_len r2
        omega

theorem ratingPat2_lt {cs : List Char} {v : DecNum} {rest : List Char}
    (h : ratingPat2 cs = some (v, rest)) : rest.length < cs.length := by
  unfold ratingPat2 at h
  cases hn : parseNum cs with
  | none => simp only [hn, reduceCtorEq] at h
  | some pr =>
    obtain ⟨v1, r1⟩ := pr
    simp only [hn] at h
    cases h2 : litP ['s', 't', 'a', 'r'] (skipWs r1) with
    | none => simp only [h2, reduceCtorEq] at h
    | some r2 =>
      simp only [h2] at h
      have hn1 := parseNum_lt hn
      have hl2 := litP_len h2
      have hw1 := skipWs_len r1
      cases h3 : litP ['s'] r2 with
      | none =>
        simp only [h3, Option.some.injEq, Prod.mk.injEq] at h
        obtain ⟨-, hr⟩ := h
        subst hr
        omega
      | some r3 =>
        simp only [h3, Option.some.injEq, Prod.mk.injEq] at h
        obtain ⟨-, hr⟩ := h
        subst hr
        have := litP_len h3
        omega

theorem ratingPat3_lt {cs : List Char} {v : DecNum} {rest : List Char}
    (h : ratingPat3 cs = some (v, rest)) : rest.length < cs.length := by
  unfold ratingPat3 at h
  cases h1 : litP ['r', 'a', 't', 'i', 'n', 'g', ':'] cs with
  | none => simp only [h1, reduceCtorEq] at h
  | some r1 =>
    simp only [h1] at h
    cases hn : parseNum (skipWs r1) with
    | none => simp only [hn, reduceCtorEq] at h
    | some pr =>
      obtain ⟨v1, r2⟩ := pr
      simp only [hn, Option.some.injEq, Prod.mk.injEq] at h
      obtain ⟨-, hr⟩ := h
      subst hr
      have hconsume : r1.length + 7 ≤ cs.length := by
        unfold litP at h1
        split_ifs at h1 with hpre
        cases h1
        have h7 : 7 ≤ cs.length := charsStartWith_len hpre
        rw [List.length_drop]
        simp only [List.length_cons, List.length_nil]
        omega
      have := parseNum_lt hn
      have := skipWs_len r1
      omega

theorem ratingPat4_lt {cs : List Char} {v : DecNum} {rest : List Char}
    (h : ratingPat4 cs = some (v, rest)) : rest.length < cs.length := by
  unfold ratingPat4 at h
  cases hn : parseNum cs with
  | none => simp only [hn, reduceCtorEq] at h
  | some pr =>
    obtain ⟨v1, r1⟩ := pr
    simp only [hn] at h
    cases h2 : litP ['o', 'u', 't'] (skipWs r1) with
    | none => simp only [h2, reduceCtorEq] at h
    | some r2 =>
      simp only [h2] at h
      cases h3 : litP ['o', 'f'] (skipWs r2) with
      | none => simp only [h3, reduceCtorEq] at h
      | some r3 =>
        simp only [h3] at h
        cases h4 : litP ['5'] (skipWs r3) with
        | none => simp only [h4, reduceCtorEq] at h
        | some r4 =>
          simp only [h4, Option.some.injEq, Prod.mk.injEq] at h
          obtain ⟨-, hr⟩ := h
          subst hr
          have := parseNum_lt hn
          have := litP_len h2
          have := litP_len h3
          have := litP_len h4
          have := skipWs_len r1
          have := skipWs_len r2
          have := skipWs_len r3
          omega

theorem ratingPat5_lt {cs : List Char} {v : DecNum} {rest : List Char}
    (h : ratingPat5 cs = some (v, rest)) : rest.length < cs.length := by
  unfold ratingPat5 at h
  cases hn : parseNum cs with
  | none => simp only [hn, reduceCtorEq] at h
  | some pr =>
    obtain ⟨v1, r1⟩ := pr
    simp only [hn] at h
    cases h2 : litP ['/'] (skipWs r1) with
    | none => simp only [h2, reduceCtorEq] at h
    | some r2 =>
      simp only [h2] at h
      cases h3 : litP ['1', '0'] (skipWs r2) with
      | none => simp only [h3, reduceCtorEq] at h
      | some r3 =>
        simp only [h3, Option.some.injEq, Prod.mk.injEq] at h
        obtain ⟨-, hr⟩ := h
        subst hr
        have := parseNum_lt hn
        have := litP_len h2
        have := litP_len h3
        have := skipWs_len r1
        have := skipWs_len r2
        omega

theorem ratingPat6_lt {cs : List Char} {v : DecNum} {rest : List Char}
    (h : ratingPat6 cs = some (v, rest)) : rest.length < cs.length := by
  unfold ratingPat6 at h
  cases hn : parseNum cs with
  | none => simp only [hn, reduceCtorEq] at h
  | some pr =>
    obtain ⟨v1, r1⟩ := pr
    simp only [hn] at h
    cases h2 : litP ['o', 'u', 't'] (skipWs r1) with
    | none => simp only [h2, reduceCtorEq] at h
    | some r2 =>
      simp only [h2] at h
      cases h3 : litP ['o', 'f'] (skipWs r2) with
      | none => simp only [h3, reduceCtorEq] at h
      | some r3 =>
        simp only [h3] at h
        cases h4 : litP ['1', '0'] (skipWs r3) with
        | none => simp only [h4, reduceCtorEq] at h
        | some r4 =>
          simp only [h4, Option.some.injEq, Prod.mk.injEq] at h
          obtain ⟨-, hr⟩ := h
          subst hr
          have := parseNum_lt hn
          have := litP_len h2
          have := litP_len h3
          have := litP_len h4
          have := skipWs_len r1
          have := skipWs_len r2
          have := skipWs_len r3
          omega

/-- For a matcher that always consumes, the scan fuel is irrelevant once
it exceeds the input length: `findAllCL` is `re.findall`'s true semantics
for the six rating matchers. -/
theorem findAllFuel_irrel (m : List Char → Option (DecNum × List Char))
    (hm : ∀ {cs : List Char} {v : DecNum} {rest : List Char},
      m cs = some (v, rest) → rest.length < cs.length) :
    ∀ f g cs, cs.length < f → cs.length < g →
      findAllFuel m f cs = findAllFuel m g cs := by
  intro f
  induction f using Nat.strong_induction_on with
  | _ f ih =>
    intro g cs hf hg
    match f, g with
    | 0, _ => omega
    | _ + 1, 0 => omega
    | f' + 1, g' + 1 =>
      simp only [findAllFuel]
      cases hmc : m cs with
      | some pr =>
        obtain ⟨v, rest⟩ := pr
        have := hm hmc
        dsimp only
        rw [ih f' (Nat.lt_succ_self f') g' rest (by omega) (by omega)]
      | none =>
        cases cs with
        | nil => rfl
        | cons c t =>
          dsimp only
          rw [ih f' (Nat.lt_succ_self f') g' t (by simpa using hf)
            (by simpa using hg)]

theorem matchPageEq_lt : ∀ {cs rem : List Char},
    matchPageEq cs = some rem → rem.length < cs.length := by
  intro cs rem h
  simp only [matchPageEq] at h
  split_ifs at h with hpre hds
  cases h
  have h5 : 5 ≤ cs.length := charsStartWith_len hpre
  simp only [List.length_drop]
  omega

/-- Fuel irrelevance of the `re.sub(r'page=\d+', …)` scan: any fuel at
least the input length computes the substitution. -/
theorem reSubPageFuel_irrel (n : Nat) :
    ∀ f g cs, cs.length ≤ f → cs.length ≤ g →
      reSubPageFuel n f cs = reSubPageFuel n g cs := by
  intro f
  induction f using Nat.strong_induction_on with
  | _ f ih =>
    intro g cs hf hg
    match f, g, cs with
    | f, g, [] => cases f <;> cases g <;> rfl
    | f' + 1, g' + 1, c :: t =>
      simp only [reSubPageFuel]
      cases hmc : matchPageEq (c :: t) with
      | some rem =>
        have hlt := matchPageEq_lt hmc
        simp only [List.length_cons] at hlt hf hg
        dsimp only
        rw [ih f' (Nat.lt_succ_self f') g' rem (by omega) (by omega)]
      | none =>
        dsimp only
        rw [ih f' (Nat.lt_succ_self f') g' t (by simpa using hf)
          (by simpa using hg)]

/-- The scaled-Nat rating filter coincides with the source's rational
bounds `0 <= rating_value <= 10`. -/
theorem ratingKeep_iff (p : DecNum) :
    ratingKeep p = true ↔ (0 ≤ ratingValQ p ∧ ratingValQ p ≤ 10) := by
  have hpow : (0 : ℚ) < (10 : ℚ) ^ p.fracLen := by positivity
  unfold ratingKeep ratingValQ
  rw [decide_eq_true_eq]
  constructor
  · intro h
    refine ⟨div_nonneg (by positivity) hpow.le, ?_⟩
    rw [div_le_iff₀ hpow]
    exact_mod_cast h
  · rintro ⟨-, h⟩
    rw [div_le_iff₀ hpow] at h
    exact_mod_cast h

/-- The scaled-Nat scale choice coincides with the source's
`10 if rating_value > 5 else 5`. -/
theorem ratingScale_eq (p : DecNum) :
    ratingScale p = if 5 < ratingValQ p then 10 else 5 := by
  have hpow : (0 : ℚ) < (10 : ℚ) ^ p.fracLen := by positivity
  unfold ratingScale ratingValQ
  by_cases h : 5 * 10 ^ p.fracLen < p.mantissa
  · rw [if_pos h, if_pos]
    rw [lt_div_iff₀ hpow]
    exact_mod_cast h
  · rw [if_neg h, if_neg]
    rw [lt_div_iff₀ hpow]
    intro hq
    exact h (by exact_mod_cast hq)

/-! ## Claims -/

/-- Claim C1: after each scroll step, when scroll position plus viewport
height reaches the total document height the driver waits the 10-second
grace interval once; if the height measured after the wait equals the
height before it the loop terminates without further scrolling, and if
the height grew the driver takes exactly one additional screenshot and
runs another scroll cycle before re-evaluating.  For the simulated height
sequence [1000, 1000] the loop ends after the single scroll of that
cycle, with one post-scroll screenshot. -/
theorem claim_C1_scroll_stability :
    (∀ (env : Nat → ScrollObs) (i sc ss : Nat),
      (env i).pageYOffsetAfter + (env i).innerHeightAfter ≥
          (env i).bodyScrollHeight →
        ((env i).finalHeight ≤ (env i).bodyScrollHeight →
          scrollLoop env i sc ss = (sc + 1, ss + 1)) ∧
        ((env i).finalHeight > (env i).bodyScrollHeight → sc + 1 < 50 →
          scrollLoop env i sc ss = scrollLoop env (i + 1) (sc + 1) (ss + 2))) ∧
    runScroll envStable1000 = (1, 2) := by
  refine ⟨fun env i sc ss hb => ⟨?_, ?_⟩, by decide⟩
  · exact fun hst => scrollLoop_bottom_stable env i sc ss hb hst
  · exact fun hg hc => scrollLoop_bottom_growth env i sc ss hb hg hc

/-- Witness for C1: concrete no-growth termination and concrete
growth continuation, obtained by instantiating `claim_C1_scroll_stability`. -/
theorem claim_C1_witness :
    scrollLoop envStable1000 3 7 9 = (8, 10) ∧
    scrollLoop envGrow2000 0 0 1 = scrollLoop envGrow2000 1 1 3 := by
  constructor
  · exact (claim_C1_scroll_stability.1 envStable1000 3 7 9 (by decide)).1 (by decide)
  · exact (claim_C1_scroll_stability.1 envGrow2000 0 0 1 (by decide)).2
      (by decide) (by decide)

/-- Claim C2: for every sequence of page-height and scroll-position
observations the scroll loop terminates with a scroll counter of at most
50 from its canonical start, never exceeds `max (sc+1) 50` from any
state, and the backend-proxy scroll counter is likewise capped at 50. -/
theorem claim_C2_hard_ceiling :
    (∀ env : Nat → ScrollObs, (runScroll env).1 ≤ 50) ∧
    (∀ (env : Nat → ScrollObs) (i sc ss : Nat),
      (scrollLoop env i sc ss).1 ≤ max (sc + 1) 50) ∧
    (∀ (h : Nat → Nat) (init : Nat), proxyScroll h init ≤ 50) := by
  refine ⟨fun env => ?_, fun env i sc ss => ?_, fun h init => ?_⟩
  · simpa using scrollLoopFuel_fst_le env (51 - min 0 50) 0 0 1
  · exact scrollLoopFuel_fst_le env (51 - min sc 50) i sc ss
  · simpa using proxyScrollFuel_le h 51 0 init 0

/-- Claim C3: the classifier tries numbered-pagination selectors first,
then load-more selectors, then infinite-scroll markers, first match
winning; any document with a numbered-pagination control classifies as
`traditional` regardless of the other tiers, and `unknown` is returned
exactly when no tier matches. -/
theorem claim_C3_classifier_priority :
    ∀ doc : List Element,
      (doc.any matchesPaginationSel = true →
        detectPaginationType doc = "traditional") ∧
      (doc.any matchesPaginationSel = false →
        doc.any matchesLoadMoreSel = true →
        detectPaginationType doc = "load_more") ∧
      (doc.any matchesPaginationSel = false →
        doc.any matchesLoadMoreSel = false →
        doc.any matchesInfiniteSel = true →
        detectPaginationType doc = "infinite_scroll") ∧
      (detectPaginationType doc = "unknown" ↔
        doc.any matchesPaginationSel = false ∧
        doc.any matchesLoadMoreSel = false ∧
        doc.any matchesInfiniteSel = false) := by
  intro doc
  unfold detectPaginationType
  refine ⟨fun h1 => by simp [h1], fun h1 h2 => by simp [h1, h2],
    fun h1 h2 h3 => by simp [h1, h2, h3], ?_⟩
  by_cases h1 : doc.any matchesPaginationSel <;>
    by_cases h2 : doc.any matchesLoadMoreSel <;>
      by_cases h3 : doc.any matchesInfiniteSel <;>
        simp [h1, h2, h3]

/-- Witness for C3: a document carrying controls of all three tiers at
once still classifies as `traditional`. -/
theorem claim_C3_witness : detectPaginationType docAllTiers = "traditional" :=
  (claim_C3_classifier_priority docAllTiers).1 (by decide)

/-- Claim C4: the candidate list handed to the Item Extractor has no two
entries with the same serialized subtree, is a subsequence (first-seen
order) of the gathered containers, and is capped at 30 (products) or 20
(travel); when the gathered containers are already pairwise distinct and
within the cap, the candidate list is exactly them, in order. -/
theorem claim_C4_dedup_cap :
    ∀ d : Doc,
      ((parseProductCandidates d).map d.render).Nodup ∧
      (parseProductCandidates d).Sublist (parseProductContainers d) ∧
      (parseProductCandidates d).length ≤ 30 ∧
      ((parseTravelCandidates d).map d.render).Nodup ∧
      (parseTravelCandidates d).Sublist (parseTravelContainers d) ∧
      (parseTravelCandidates d).length ≤ 20 ∧
      (((parseProductContainers d).map d.render).Nodup →
        (parseProductContainers d).length ≤ 30 →
        parseProductCandidates d = parseProductContainers d) ∧
      (((parseTravelContainers d).map d.render).Nodup →
        (parseTravelContainers d).length ≤ 20 →
        parseTravelCandidates d = parseTravelContainers d) := by
  intro d
  have hprodNodup : ((parseProductCandidates d).map d.render).Nodup := by
    unfold parseProductCandidates
    by_cases hcs : (parseProductContainers d).isEmpty
    · simp [hcs]
    · simp only [hcs, if_neg, Bool.not_eq_true, if_false]
      rw [List.map_take]
      exact ((List.take_sublist _ _).nodup
        (dedupKeyed_keys_nodup d.render (parseProductContainers d) []))
  have htravNodup : ((parseTravelCandidates d).map d.render).Nodup := by
    unfold parseTravelCandidates
    rw [List.map_take]
    exact ((List.take_sublist _ _).nodup
      (dedupKeyed_keys_nodup d.render (parseTravelContainers d) []))
  have hprodSub : (parseProductCandidates d).Sublist (parseProductContainers d) := by
    unfold parseProductCandidates
    by_cases hcs : (parseProductContainers d).isEmpty
    · simp [hcs]
    · simp only [hcs, if_neg, Bool.not_eq_true, if_false]
      exact (List.take_sublist _ _).trans (dedupKeyed_sublist d.render _ [])
  have htravSub : (parseTravelCandidates d).Sublist (parseTravelContainers d) := by
    unfold parseTravelCandidates
    exact (List.take_sublist _ _).trans (dedupKeyed_sublist d.render _ [])
  have hprodLen : (parseProductCandidates d).length ≤ 30 := by
    unfold parseProductCandidates
    by_cases hcs : (parseProductContainers d).isEmpty
    · simp [hcs]
    · simp only [hcs, if_neg, Bool.not_eq_true, if_false]
      exact List.length_take_le _ _
  have htravLen : (parseTravelCandidates d).length ≤ 20 := by
    unfold parseTravelCandidates
    exact List.length_take_le _ _
  have hprodId : ((parseProductContainers d).map d.render).Nodup →
      (parseProductContainers d).length ≤ 30 →
      parseProductCandidates d = parseProductContainers d := by
    intro hnd hlen
    unfold parseProductCandidates
    by_cases hcs : (parseProductContainers d).isEmpty
    · simp only [hcs, if_pos]
      exact (List.isEmpty_iff.mp hcs).symm
    · simp only [hcs, if_neg, Bool.not_eq_true, if_false]
      rw [dedupKeyed_id_of_nodup d.render _ [] hnd (by intro x _ hx; cases hx)]
      exact List.take_of_length_le hlen
  have htravId : ((parseTravelContainers d).map d.render).Nodup →
      (parseTravelContainers d).length ≤ 20 →
      parseTravelCandidates d = parseTravelContainers d := by
    intro hnd hlen
    unfold parseTravelCandidates
    rw [dedupKeyed_id_of_nodup d.render _ [] hnd (by intro x _ hx; cases hx)]
    exact List.take_of_length_le hlen
  exact ⟨hprodNodup, hprodSub, hprodLen, htravNodup, htravSub, htravLen,
    hprodId, htravId⟩

/-- Witness for C4: seven distinct containers pass through unchanged and
in order. -/
theorem claim_C4_witness :
    parseProductCandidates docSeven = parseProductContainers docSeven ∧
    parseProductContainers docSeven = [1, 2, 3, 4, 5, 6, 7] := by
  refine ⟨(claim_C4_dedup_cap docSeven).2.2.2.2.2.2.1 (by decide) (by decide), ?_⟩
  decide

/-- Claim C5: a travel candidate yields a record exactly when the
extracted title, price or route is non-empty, and a product candidate
exactly when the extracted title or price is non-empty (a product record
carries no route field, so the route is vacuously empty); an all-empty
candidate is discarded by returning nothing, not by an error. -/
theorem claim_C5_accept_gate :
    (∀ (c : Container) (i : Nat) (u : String) (r : TravelItem),
      extractTravelData c i u = some r →
        r.title ≠ "" ∨ r.price ≠ "" ∨ r.route ≠ "") ∧
    (∀ (c : Container) (i : Nat) (u : String),
      extractTravelData c i u = none ↔
        extractTitle c travelTitleSelectors = "" ∧
        extractPrice c travelPricePatterns = "" ∧
        extractRoute c travelRoutePatterns = "") ∧
    (∀ (c : Container) (i : Nat) (u : String) (r : ProductItem),
      extractProductData c i u = some r → r.title ≠ "" ∨ r.price ≠ "") ∧
    (∀ (c : Container) (i : Nat) (u : String),
      extractProductData c i u = none ↔
        extractTitle c productTitleSelectors = "" ∧
        extractPrice c productPricePatterns = "") := by
  refine ⟨?_, ?_, ?_, ?_⟩
  · intro c i u r h
    simp only [extractTravelData] at h
    split_ifs at h with hc
    cases h
    exact hc
  · intro c i u
    simp only [extractTravelData]
    split_ifs with hc
    · simp only [reduceCtorEq, false_iff]
      rintro ⟨h1, h2, h3⟩
      rcases hc with h | h | h
      · exact h h1
      · exact h h2
      · exact h h3
    · push_neg at hc
      simpa using hc
  · intro c i u r h
    simp only [extractProductData] at h
    split_ifs at h with hc
    cases h
    exact hc
  · intro c i u
    simp only [extractProductData]
    split_ifs with hc
    · simp only [reduceCtorEq, false_iff]
      rintro ⟨h1, h2⟩
      rcases hc with h | h
      · exact h h1
      · exact h h2
    · push_neg at hc
      simpa using hc

/-- Witness for C5: the all-empty container is rejected on both paths,
and the titled container's record satisfies the gate. -/
theorem claim_C5_witness :
    extractTravelData emptyContainer 1 "http://a.com" = none ∧
    extractProductData emptyContainer 2 "http://a.com" = none ∧
    (titledItem.title ≠ "" ∨ titledItem.price ≠ "") := by
  refine ⟨?_, ?_, ?_⟩
  · exact (claim_C5_accept_gate.2.1 emptyContainer 1 "http://a.com").mpr
      ⟨rfl, rfl, rfl⟩
  · exact (claim_C5_accept_gate.2.2.2 emptyContainer 2 "http://a.com").mpr
      ⟨rfl, rfl⟩
  · exact claim_C5_accept_gate.2.2.1 titledContainer 1 "http://shop.com"
      titledItem (by decide)

/-- Claim C6: on `"4.5 out of 5 stars"` the parser produces a rating of
value 4.5 with scale 5, on `"8/10"` a rating of value 8 with scale 10,
and every entry of the output list has its value inside `[0, 10]`. -/
theorem claim_C6_rating_extraction :
    (∃ p ∈ extractRatingsUniversal "4.5 out of 5 stars",
      ratingValQ p.1 = 4.5 ∧ p.2 = 5) ∧
    (∃ p ∈ extractRatingsUniversal "8/10",
      ratingValQ p.1 = 8 ∧ p.2 = 10) ∧
    (∀ (t : String) (p : DecNum × Nat), p ∈ extractRatingsUniversal t →
      0 ≤ ratingValQ p.1 ∧ ratingValQ p.1 ≤ 10) := by
  refine ⟨⟨(⟨45, 1⟩, 5), by decide, by norm_num [ratingValQ], rfl⟩,
    ⟨(⟨8, 0⟩, 10), by decide, by norm_num [ratingValQ], rfl⟩, ?_⟩
  intro t p hmem
  simp only [extractRatingsUniversal] at hmem
  have hmem' := (List.take_sublist _ _).subset hmem
  rcases List.mem_filterMap.mp hmem' with ⟨q, hq, hf⟩
  by_cases hk : ratingKeep q
  · rw [if_pos hk] at hf
    cases hf
    exact (ratingKeep_iff q).mp hk
  · rw [if_neg hk] at hf
    cases hf

/-- Witness for C6: the in-range bound instantiated on the entry the
parser returns for `"8/10"`. -/
theorem claim_C6_witness :
    0 ≤ ratingValQ ⟨8, 0⟩ ∧ ratingValQ ⟨8, 0⟩ ≤ 10 :=
  claim_C6_rating_extraction.2.2 "8/10" (⟨8, 0⟩, 10) (by decide)

/-- Loop invariant for `_scrape_paginated_pages`: with pages `cur..k-1`
succeeding non-emptily and page `k` raising, the loop returns the
accumulator extended by exactly those pages' records. -/
theorem scrapeLoopFuel_partial {α : Type} (outcome : Nat → PageResult α)
    (maxPages k : Nat) (ps : Nat → List α)
    (hk : k ≤ maxPages) (hraise : outcome k = .raised)
    (hok : ∀ j, 1 ≤ j → j < k → outcome j = .returned (ps j) ∧ ps j ≠ []) :
    ∀ (fuel cur : Nat) (acc : List α), 1 ≤ cur → cur ≤ k →
      maxPages + 1 - cur ≤ fuel →
      scrapeLoopFuel outcome maxPages fuel cur acc =
        (k - 1, acc ++ ((List.range' cur (k - cur)).map ps).flatten) := by
  intro fuel
  induction fuel with
  | zero => intro cur acc h1 h2 h3; omega
  | succ fuel ih =>
    intro cur acc h1 h2 h3
    have hcle : cur ≤ maxPages := le_trans h2 hk
    by_cases hck : cur = k
    · subst hck
      simp [scrapeLoopFuel, hcle, hraise]
    · have hlt : cur < k := lt_of_le_of_ne h2 hck
      obtain ⟨hoc, hne⟩ := hok cur h1 hlt
      have hemp : (ps cur).isEmpty = false := by
        simpa [List.isEmpty_iff] using hne
      simp only [scrapeLoopFuel, hcle, if_pos, hoc, hemp, Bool.false_eq_true,
        if_false]
      rw [ih (cur + 1) (acc ++ ps cur) (by omega) hlt (by omega)]
      have hsplit : k - cur = (k - (cur + 1)) + 1 := by omega
      rw [hsplit, List.range'_succ]
      simp [List.append_assoc]

/-- Claim C7: when page `k` of a multi-page scrape raises an exception
after pages `1..k-1` returned records, the orchestrator stops and returns
exactly the records accumulated from those earlier pages, unchanged. -/
theorem claim_C7_partial_results {α : Type} (outcome : Nat → PageResult α)
    (maxPages k : Nat) (ps : Nat → List α)
    (h1 : 1 ≤ k) (hk : k ≤ maxPages) (hraise : outcome k = .raised)
    (hok : ∀ j, 1 ≤ j → j < k → outcome j = .returned (ps j) ∧ ps j ≠ []) :
    scrapePaginated outcome maxPages =
      (k - 1, ((List.range' 1 (k - 1)).map ps).flatten) := by
  unfold scrapePaginated
  simpa using scrapeLoopFuel_partial outcome maxPages k ps hk hraise hok
    maxPages 1 [] le_rfl h1 (by omega)

/-- Witness for C7: pages 1 and 2 return two and one record, page 3
raises; the result keeps all three records and reports two pages. -/
theorem claim_C7_witness :
    scrapePaginated outcomeEx 5 = (2, ["p1a", "p1b", "p2a"]) := by
  have h := claim_C7_partial_results outcomeEx 5 3 psEx (by omega) (by omega)
    rfl ?_
  · exact h.trans (by decide)
  · intro j hj1 hj2
    interval_cases j
    · exact ⟨rfl, by decide⟩
    · exact ⟨rfl, by decide⟩

/-- Claim C8: when no JSON array substring is found, or the found
substring fails to parse, the vision fallback returns an empty record
list (no exception); a non-empty record list arises only from a located
and successfully parsed non-empty array. -/
theorem claim_C8_vision_fallback :
    ∀ (parse : String → Option (List JObj)) (content url : String)
      (pn : Nat) (it : Bool),
      (findJsonArray content = none →
        parseScreenshotRecords parse content url pn it = []) ∧
      (∀ s, findJsonArray content = some s → parse s = none →
        parseScreenshotRecords parse content url pn it = []) ∧
      (parseScreenshotRecords parse content url pn it ≠ [] →
        ∃ s objs, findJsonArray content = some s ∧ parse s = some objs ∧
          objs ≠ []) := by
  intro parse content url pn it
  refine ⟨?_, ?_, ?_⟩
  · intro h
    simp [parseScreenshotRecords, h]
  · intro s hs hp
    simp [parseScreenshotRecords, hs, hp]
  · cases hfa : findJsonArray content with
    | none =>
      intro hne
      exact absurd (by simp [parseScreenshotRecords, hfa]) hne
    | some s =>
      cases hp : parse s with
      | none =>
        intro hne
        exact absurd (by simp [parseScreenshotRecords, hfa, hp]) hne
      | some objs =>
        intro hne
        refine ⟨s, objs, rfl, hp, ?_⟩
        intro hobjs
        subst hobjs
        exact hne (by simp [parseScreenshotRecords, hfa, hp])

/-- Witness for C8: a reply with no array and a reply whose array fails
to parse both yield the empty record list. -/
theorem claim_C8_witness :
    parseScreenshotRecords (fun _ => none) "no json array here"
      "http://a.com" 1 false = [] ∧
    parseScreenshotRecords (fun _ => none) "x [1, 2] y"
      "http://a.com" 1 false = [] := by
  constructor
  · exact (claim_C8_vision_fallback (fun _ => none) "no json array here"
      "http://a.com" 1 false).1 (by decide)
  · exact (claim_C8_vision_fallback (fun _ => none) "x [1, 2] y"
      "http://a.com" 1 false).2.1 "[1, 2]" (by decide) rfl

/-- Claim C9: the Container Candidate Selector is a pure function of the
parsed document and site-type path, so two runs on the same input agree;
moreover the dedup pass depends on its seen-key accumulator only through
membership, so no set-iteration order can perturb the output. -/
theorem claim_C9_selector_deterministic :
    (∀ d : Doc, parseProductCandidates d = parseProductCandidates d ∧
      parseTravelCandidates d = parseTravelCandidates d) ∧
    (∀ (key : Nat → String) (xs : List Nat) (seen seen' : List String),
      (∀ a, a ∈ seen ↔ a ∈ seen') →
      dedupKeyed key xs seen = dedupKeyed key xs seen') :=
  ⟨fun _ => ⟨rfl, rfl⟩,
   fun key xs s s' h => dedupKeyed_seen_ext key xs s s' h⟩

/-- Witness for C9: dedup against two extensionally equal seen-sets. -/
theorem claim_C9_witness :
    dedupKeyed (fun n => toString n) [1, 2, 1] ["9"] =
      dedupKeyed (fun n => toString n) [1, 2, 1] ["9", "9"] :=
  claim_C9_selector_deterministic.2 (fun n => toString n) [1, 2, 1]
    ["9"] ["9", "9"] (by intro a; simp)

/-- Counterexample to C10 as stated: `_construct_page_url` does not
return the base URL unchanged for page 1 — it appends `?page=1`. -/
theorem claim_C10_counterexample :
    constructPageUrl "https://example.com/items" 1 ≠
      "https://example.com/items" := by decide

/-- Claim C10 (amended): `_get_page_url` returns the base unchanged at
page 1, and for larger pages appends the page parameter (`?page=n`
without a query, `&page=n` with one) or rewrites every existing
`page=<digits>`; `_construct_page_url`, by contrast, appends a page
parameter for every page number — including 1 — and never returns the
base unchanged. -/
theorem claim_C10_amended :
    (∀ b : String, getPageUrl b 1 = b) ∧
    (∀ (b : String) (n : Nat), n ≠ 1 → strHas b "?" = false →
      getPageUrl b n = b ++ "?page=" ++ toString n) ∧
    (∀ (b : String) (n : Nat), n ≠ 1 → strHas b "?" = true →
      strHas b "page=" = false →
      getPageUrl b n = b ++ "&page=" ++ toString n) ∧
    (∀ (b : String) (n : Nat), n ≠ 1 → strHas b "?" = true →
      strHas b "page=" = true → getPageUrl b n = reSubPage n b) ∧
    getPageUrl "https://x.com/s?page=3" 5 = "https://x.com/s?page=5" ∧
    getPageUrl "https://x.com/s?a=1&page=12&b=2" 2 =
      "https://x.com/s?a=1&page=2&b=2" ∧
    (∀ (b : String) (n : Nat), constructPageUrl b n ≠ b) := by
  refine ⟨?_, ?_, ?_, ?_, by decide, by decide, ?_⟩
  · intro b
    simp [getPageUrl]
  · intro b n hn h
    unfold getPageUrl
    rw [if_neg hn, if_neg (by simp [h])]
  · intro b n hn h hp
    unfold getPageUrl
    rw [if_neg hn, if_pos h, if_neg (by simp [hp])]
  · intro b n hn h hp
    unfold getPageUrl
    rw [if_neg hn, if_pos h, if_pos hp]
  · intro b n h
    unfold constructPageUrl at h
    have e1 : ("&page=" : String).length = 6 := rfl
    have e2 : ("?page=" : String).length = 6 := rfl
    split_ifs at h <;> apply_fun String.length at h <;>
      simp only [String.length_append, e1, e2] at h <;> omega

/-- Witness for C10 (amended): page-1 identity, both append forms, and
the non-identity of `_construct_page_url` at page 1, instantiated. -/
theorem claim_C10_witness :
    getPageUrl "http://a.com" 1 = "http://a.com" ∧
    getPageUrl "http://a.com" 3 = "http://a.com?page=3" ∧
    getPageUrl "http://a.com?q=x" 2 = "http://a.com?q=x&page=2" ∧
    constructPageUrl "http://a.com" 1 ≠ "http://a.com" :=
  ⟨claim_C10_amended.1 "http://a.com",
   claim_C10_amended.2.1 "http://a.com" 3 (by decide) (by decide),
   claim_C10_amended.2.2.1 "http://a.com?q=x" 2 (by decide) (by decide)
     (by decide),
   claim_C10_amended.2.2.2.2.2.2 "http://a.com" 1⟩

end Aurora
